import Mathlib

/-!
Verification of the file-generation and upload scripts
(`create_files.py`, `upload_files.py`).

Python strings are modelled as lists of characters (`PyStr`); the
filesystem effects of `create_data_folder_with_files` are modelled as an
explicit effect trace, and the subprocess calls of `upload_files.py` as a
step trace parameterised by a `World` oracle that answers what each
external command returns.
-/

/-- Python strings are sequences of code points: model them as `List Char`. -/
abbrev PyStr := List Char

/-- Convenience: the character list of a Lean string literal. -/
def pstr (s : String) : PyStr := s.data

deriving instance DecidableEq for Except

namespace CreateFiles

/-- The decimal digit character for `n < 10` (`chr(48 + n)`). -/
def digitChar (n : Nat) : Char := Char.ofNat (48 + n)

/-- Fuel-indexed base-10 rendering loop (structural recursion so that the
kernel can evaluate it). -/
def natReprGo : Nat → Nat → PyStr
  | 0, _ => []
  | fuel + 1, n =>
    if n < 10 then [digitChar n]
    else natReprGo fuel (n / 10) ++ [digitChar (n % 10)]

/-- Base-10 rendering of a natural number, as produced by Python string
formatting of a nonnegative integer.  `n + 1` units of fuel always
suffice since `n / 10 < n` for `n ≥ 10`. -/
def natRepr (n : Nat) : PyStr := natReprGo (n + 1) n

/-- The filename used for index `i`: `f"file_{i}.txt"`
(`create_files.py`, line 71). -/
def fileName (i : Nat) : PyStr := pstr "file_" ++ natRepr i ++ pstr ".txt"

/-- The numeric value of a decimal digit character (used to read a
`natRepr` rendering back). -/
def charVal (c : Char) : Nat := c.toNat - 48

/-- Evaluate a base-10 digit string back to the number it denotes. -/
def fromDigits (l : PyStr) : Nat := l.foldl (fun a c => a * 10 + charVal c) 0

/-- The directory-entry filter of `create_files.py` lines 60–63:
`f.startswith("file_") and f.endswith(".txt")`. -/
def isMatchingEntry (f : PyStr) : Bool :=
  (pstr "file_").isPrefixOf f && (pstr ".txt").isSuffixOf f

/-- The existing entries counted by lines 60–63. -/
def existing_files (dir : List PyStr) : List PyStr :=
  dir.filter isMatchingEntry

/-- `next_index = len(existing_files) + 1` (line 64). -/
def next_index (dir : List PyStr) : Nat := (existing_files dir).length + 1

/-- The size of the `i`-th new file (lines 66–70):
`size_per_file = total // num_files`, `remainder = total % num_files`,
`file_size = size_per_file + (1 if i < remainder else 0)`. -/
def fileSize (t n i : Nat) : Nat := t / n + if i < t % n then 1 else 0

/-- The list of sizes of the files written by the loop at lines 69–73. -/
def fileSizes (t n : Nat) : List Nat := (List.range n).map (fileSize t n)

/-- The `(name, size)` pairs of the files written by one run of the loop
at lines 69–73, given the pre-existing directory listing `dir`. -/
def plannedFiles (dir : List PyStr) (t n : Nat) : List (PyStr × Nat) :=
  (List.range n).map fun i => (fileName (next_index dir + i), fileSize t n i)

/-- Filesystem effects performed by `create_data_folder_with_files`. -/
inductive FsEffect
  | makedirs (folder : PyStr)
  | writeFile (folder : PyStr) (name : PyStr) (size : Nat)
  deriving DecidableEq, Repr

/-- The content written for a file of `file_size` bytes (line 73):
`'0' * file_size`. -/
def fileContent (size : Nat) : PyStr := List.replicate size '0'

/-- The number of bytes the UTF-8 encoding of a string occupies
(files are opened with `encoding='utf-8'`). -/
def utf8Len (s : PyStr) : Nat := (s.map Char.utf8Size).sum

/-- Shallow embedding of `create_data_folder_with_files`
(`create_files.py` lines 45–76) with an explicit caller-supplied folder
name and the pre-existing listing `dir` of that folder.  Returns the list
of filesystem effects performed and `some errorMessage` when the function
raises `ValueError`.  The three validation checks (lines 46–51) run before
any filesystem access, so an error produces an empty effect list. -/
def create_data_folder_with_files (total_size_bytes num_files : Int)
    (folder : PyStr) (dir : List PyStr) : List FsEffect × Option PyStr :=
  if total_size_bytes ≤ 0 then
    ([], some (pstr "Total size must be greater than 0."))
  else if num_files ≤ 0 then
    ([], some (pstr "Number of files must be greater than 0."))
  else if num_files > total_size_bytes then
    ([], some (pstr "Number of files cannot exceed total size in bytes (each file must be at least 1 byte)."))
  else
    let t := total_size_bytes.toNat
    let n := num_files.toNat
    (FsEffect.makedirs folder ::
      (plannedFiles dir t n).map (fun p => FsEffect.writeFile folder p.1 p.2),
     none)

/-- The `(name, size)` pairs of the `writeFile` effects of a trace. -/
def writtenFiles (es : List FsEffect) : List (PyStr × Nat) :=
  es.filterMap fun e =>
    match e with
    | .writeFile _ name size => some (name, size)
    | _ => none

/-- The indices of the files written by one run of the loop at
lines 69–73. -/
def writtenIndices (dir : List PyStr) (n : Nat) : List Nat :=
  (List.range n).map (next_index dir + ·)

/-- A directory listing whose matching entries are exactly
`file_1.txt … file_k.txt` (the state the generator itself produces when
started on an empty folder). -/
def canonicalDir (k : Nat) : List PyStr :=
  (List.range k).map fun j => fileName (j + 1)

end CreateFiles

namespace ParseSize

/-- The ASCII characters `str.strip()` removes (CPython `str.isspace`):
`\t \n \v \f \r`, the separator controls `0x1c`–`0x1f`, and space. -/
def pyStripSpace (c : Char) : Bool :=
  c.toNat = 32 ∨ (9 ≤ c.toNat ∧ c.toNat ≤ 13) ∨
    (28 ≤ c.toNat ∧ c.toNat ≤ 31)

/-- The ASCII characters `float()` and `int()` strip around a numeric
string: `\t \n \v \f \r` and space only (`0x1c`–`0x1f` are *not*
accepted there, unlike in `str.strip()`). -/
def pyNumSpace (c : Char) : Bool :=
  c.toNat = 32 ∨ (9 ≤ c.toNat ∧ c.toNat ≤ 13)

/-- Strip the characters satisfying `p` from both ends. -/
def trimBy (p : Char → Bool) (s : PyStr) : PyStr :=
  ((s.dropWhile p).reverse.dropWhile p).reverse

/-- `str.strip()` (ASCII inputs). -/
def trimPy (s : PyStr) : PyStr := trimBy pyStripSpace s

/-- The numeric value of a decimal digit character. -/
def digitVal (c : Char) : Nat := c.toNat - 48

/-- Python float/int values, as far as `parse_size` can observe them.
A finite double is modelled by its exact value, written as the pair
`finite num den` for the value `num / den`; `pyFloat?` produces only
pairs whose value is exactly representable in IEEE-754 binary64 (`den` a
power of two, `|num / den|` a 53-bit significand times a power of two),
because it rounds the decimal literal the way `float()` does.  The
special values `inf`, `-inf` and `nan` are modelled explicitly because
`int()` treats them specially. -/
inductive PyNum
  | finite (num : Int) (den : Nat)
  | inf
  | neginf
  | nan
  deriving DecidableEq, Repr

/-- Fuel-indexed bit-length loop (structural recursion so that the
kernel can evaluate it). -/
def bitlenGo : Nat → Nat → Nat
  | 0, _ => 0
  | fuel + 1, n => if n = 0 then 0 else bitlenGo fuel (n / 2) + 1

/-- The number of binary digits of `n` (`0` for `n = 0`); `n + 1` units
of fuel always suffice. -/
def bitlen (n : Nat) : Nat := bitlenGo (n + 1) n

/-- `⌊log₂ (n / d)⌋` for `n, d ≥ 1`: the bit-length difference `L`
satisfies `2 ^ (L - 1) ≤ n / d < 2 ^ (L + 1)`, and one exact comparison
against `2 ^ L` decides which side holds. -/
def floorLog2 (n d : Nat) : Int :=
  let L : Int := (bitlen n : Int) - (bitlen d : Int)
  if d * 2 ^ L.toNat ≤ n * 2 ^ (-L).toNat then L else L - 1

/-- Divide `m` by two while it is even, at most `k` times; returns the
reduced `m` and how many of the `k` halvings remain (used to put a
dyadic value `m / 2 ^ k` in lowest terms). -/
def evenReduceGo : Nat → Nat → Nat → Nat × Nat
  | 0, m, k => (m, k)
  | fuel + 1, m, k =>
    if m % 2 = 0 ∧ 0 < k then evenReduceGo fuel (m / 2) (k - 1) else (m, k)

/-- `evenReduce m k` reduces the fraction `m / 2 ^ k`. -/
def evenReduce (m k : Nat) : Nat × Nat := evenReduceGo (k + 1) m k

/-- Round the exact positive rational `n / d` to the nearest IEEE-754
binary64 value, ties to even (what CPython's correctly-rounded `strtod`
does when `float()` parses a literal): scale so the significand has 53
bits (or the exponent is the subnormal minimum `-1074`), round the
resulting integer quotient half-to-even, and overflow to infinity
(`none`) when the rounded value reaches `2 ^ 1024`.  The result is the
exact dyadic value in lowest terms. -/
def roundDouble (n d : Nat) : Option (Nat × Nat) :=
  if n = 0 then some (0, 1)
  else
    let e : Int := max (floorLog2 n d - 52) (-1074)
    let a := n * 2 ^ (-e).toNat
    let b := d * 2 ^ e.toNat
    let q := a / b
    let r := a % b
    let m := if b < 2 * r then q + 1
             else if 2 * r < b then q
             else if q % 2 = 0 then q else q + 1
    if 2 ^ (1024 + (-e).toNat) ≤ m * 2 ^ e.toNat then none
    else if 0 ≤ e then some (m * 2 ^ e.toNat, 1)
    else
      let p := evenReduce m (-e).toNat
      some (p.1, 2 ^ p.2)

/-- Consume a maximal run of decimal digits, where a single underscore may
appear between two digits (Python numeric-literal grammar).  Returns the
accumulated value, the number of digits consumed, and the rest of the
input. -/
def udigitsGo : List Char → Nat → Nat → Nat × Nat × List Char
  | '_' :: c :: rest, acc, cnt =>
    if c.isDigit then udigitsGo rest (acc * 10 + digitVal c) (cnt + 1)
    else (acc, cnt, '_' :: c :: rest)
  | c :: rest, acc, cnt =>
    if c.isDigit then udigitsGo rest (acc * 10 + digitVal c) (cnt + 1)
    else (acc, cnt, c :: rest)
  | [], acc, cnt => (acc, cnt, [])

/-- Entry point for a digit run: it must start with a digit (a leading
underscore is not consumed). -/
def takeUDigits (l : List Char) : Nat × Nat × List Char :=
  match l with
  | c :: _ => if c.isDigit then udigitsGo l 0 0 else (0, 0, l)
  | [] => (0, 0, [])

/-- Parse an optional exponent part (`E`, optional sign, digits); input is
already uppercased.  `none` on a malformed exponent or trailing junk. -/
def parseExp : List Char → Option Int
  | [] => some 0
  | 'E' :: r =>
    let (sgn, r2) : Bool × List Char :=
      match r with
      | '+' :: r2 => (false, r2)
      | '-' :: r2 => (true, r2)
      | r2 => (false, r2)
    let (v, cnt, rest) := takeUDigits r2
    if cnt = 0 ∨ rest ≠ [] then none
    else some (if sgn then -(v : Int) else (v : Int))
  | _ => none

/-- Apply a decimal exponent to an exact numerator/denominator pair. -/
def scaleExp (p : Int × Nat) (e : Int) : Int × Nat :=
  match e with
  | .ofNat k => (p.1 * (10 : Int) ^ k, p.2)
  | .negSucc k => (p.1, p.2 * 10 ^ (k + 1))

/-- Parse the body of a finite float literal
(`digits [. digits] [exponent]`, at least one digit in the mantissa),
already uppercased and sign-stripped, as an exact
numerator/denominator pair. -/
def parseFloatBody (l : List Char) : Option (Int × Nat) :=
  let (iv, ic, r1) := takeUDigits l
  match r1 with
  | '.' :: r2 =>
    let (fv, fc, r3) := takeUDigits r2
    if ic + fc = 0 then none
    else (parseExp r3).map fun e =>
      scaleExp (((iv * 10 ^ fc + fv : Nat) : Int), 10 ^ fc) e
  | r1 =>
    if ic = 0 then none
    else (parseExp r1).map fun e => scaleExp ((iv : Int), 1) e

/-- The sign-stripped part of `float(...)`: the special spellings
`inf`/`infinity`/`nan` (input already uppercased), else a finite literal
whose exact decimal value is rounded to the nearest binary64 double
(overflowing to infinity), as `float()` does. -/
def pyFloatBody (l : List Char) (neg : Bool) : Option PyNum :=
  if l = pstr "INF" ∨ l = pstr "INFINITY" then
    some (if neg then .neginf else .inf)
  else if l = pstr "NAN" then some .nan
  else (parseFloatBody l).map fun p =>
    match roundDouble p.1.natAbs p.2 with
    | none => if neg then .neginf else .inf
    | some rp => .finite (if neg then -(rp.1 : Int) else (rp.1 : Int)) rp.2

/-- Model of Python `float(s)` for ASCII inputs: strip the whitespace
`float()` accepts, case-fold, optional sign, then a float literal or one
of the special spellings, rounded to nearest-even binary64. -/
def pyFloat? (s : PyStr) : Option PyNum :=
  match (trimBy pyNumSpace s).map Char.toUpper with
  | '+' :: r => pyFloatBody r false
  | '-' :: r => pyFloatBody r true
  | r => pyFloatBody r false

/-- Digit run for `int(...)`: value only, `none` when empty or malformed
(underscores only between digits, input must be all digits). -/
def intDigits (l : List Char) : Option Nat :=
  match takeUDigits l with
  | (v, cnt, rest) => if cnt = 0 ∨ rest ≠ [] then none else some v

/-- Model of Python `int(s)` for ASCII inputs: strip the whitespace
`int()` accepts, optional sign, decimal digits (underscores between
digits allowed); no fractional part, no exponent. -/
def pyInt? (s : PyStr) : Option Int :=
  match trimBy pyNumSpace s with
  | '+' :: r => (intDigits r).map fun v => (v : Int)
  | '-' :: r => (intDigits r).map fun v => -(v : Int)
  | r => (intDigits r).map fun v => (v : Int)

/-- The unit table of `parse_size` (line 17), in dictionary order. -/
def UNITS : List (PyStr × Nat) :=
  [(pstr "KB", 1024), (pstr "MB", 1024 ^ 2), (pstr "GB", 1024 ^ 3)]

/-- The `for unit in units: if size_str.endswith(unit)` loop of
lines 18–19: the first unit the (stripped, uppercased) string ends with. -/
def findUnit : List (PyStr × Nat) → PyStr → Option (PyStr × Nat)
  | [], _ => none
  | (u, m) :: rest, t => if u.isSuffixOf t then some (u, m) else findUnit rest t

/-- `size_str[:-len(unit)]` (line 21). -/
def dropSuffix (t u : PyStr) : PyStr := t.take (t.length - u.length)

/-- How `parse_size` can fail: `invalidSize` is the
`argparse.ArgumentTypeError(f"Invalid size value: {size_str}")` raised at
lines 24 and 28 (`size_str` there is the stripped, uppercased string);
`overflow` is the `OverflowError` that `int(...)` raises on an infinite
float, which the `except ValueError` handler does not catch. -/
inductive SizeError
  | invalidSize (t : PyStr)
  | overflow
  deriving DecidableEq, Repr

/-- `int(num / den)` for an exact rational value: truncation toward zero
(`Int.tdiv` is T-division; the denominator is positive). -/
def intTrunc (num : Int) (den : Nat) : Int := num.tdiv (den : Int)

/-- Whether the IEEE multiplication `number * units[unit]` overflows to
infinity.  `number = num / den` is a binary64 value and the unit a power
of two, so the exact product is a 53-bit significand scaled by a power
of two: it is representable — and the multiplication exact — unless its
magnitude reaches `2 ^ 1024`, in which case the product is infinite. -/
def prodOverflows (num : Int) (den : Nat) (m : Nat) : Bool :=
  2 ^ 1024 * den ≤ (num * (m : Int)).natAbs

/-- Shallow embedding of `parse_size` (`create_files.py` lines 15–28).
With a unit suffix, `int(number * units[unit])` sits inside the
`try`/`except ValueError` block: for a finite `number` the product is
exact (the unit is a power of two) unless it overflows to infinity, so
`int()` truncates it toward zero or raises `OverflowError`; a NaN makes
`int()` raise `ValueError`, which is caught and re-raised as the
invalid-size error; an infinite `number` likewise reaches `int()` and
raises `OverflowError`, which escapes uncaught. -/
def parse_size (sizeStr : PyStr) : Except SizeError Int :=
  let t := (trimPy sizeStr).map Char.toUpper
  match findUnit UNITS t with
  | some (u, m) =>
    match pyFloat? (dropSuffix t u) with
    | some (.finite num den) =>
      if prodOverflows num den m then .error .overflow
      else .ok (intTrunc (num * (m : Int)) den)
    | some .inf => .error .overflow
    | some .neginf => .error .overflow
    | some .nan => .error (.invalidSize t)
    | none => .error (.invalidSize t)
  | none =>
    match pyInt? t with
    | some n => .ok n
    | none => .error (.invalidSize t)

end ParseSize

namespace UploadFiles

/-- Outcome of one external command, as `subprocess.run(..., check=True)`
observes it: success, or a `CalledProcessError` carrying the captured
output streams. -/
inductive CmdResult
  | success (stdout stderr : PyStr)
  | failure (stdout stderr : PyStr)
  deriving DecidableEq

/-- The external world: what every command invocation returns, and which
paths `os.path.isdir` accepts. -/
structure World where
  run : List PyStr → CmdResult
  isdir : PyStr → Bool

/-- One observable step of `upload_files.py`: a line printed to stdout or
stderr, an external command actually executed, or `sys.exit`. -/
inductive UStep
  | print (line : PyStr)
  | printErr (line : PyStr)
  | exec (cmd : List PyStr)
  | exit (code : Nat)
  deriving DecidableEq

/-- `' '.join(cmd)`. -/
def joinSpace (cmd : List PyStr) : PyStr := List.intercalate (pstr " ") cmd

/-- The commands actually executed in a trace. -/
def execsOf (t : List UStep) : List (List PyStr) :=
  t.filterMap fun s =>
    match s with
    | .exec c => some c
    | _ => none

/-- `["imkdir", "-p", path]` (`upload_files.py` line 37). -/
def imkdirCmd (path : PyStr) : List PyStr := [pstr "imkdir", pstr "-p", path]

/-- The `iput` command of lines 55–58: `["iput", "-r"]`, then
`["-R", resource]` when a resource is given, then folder and path. -/
def iputCmd (resource : Option PyStr) (localFolder irodsPath : PyStr) :
    List PyStr :=
  [pstr "iput", pstr "-r"] ++
    (match resource with
     | some r => [pstr "-R", r]
     | none => []) ++
    [localFolder, irodsPath]

/-- `["irepl", "-r", "-R", second_resource, uploaded_folder_path]`
(line 82). -/
def ireplCmd (uploadedPath secondResource : PyStr) : List PyStr :=
  [pstr "irepl", pstr "-r", pstr "-R", secondResource, uploadedPath]

/-- The `STDOUT:`/`STDERR:` reporting of a `CalledProcessError` handler
(`if e.stdout: print(...)`, `if e.stderr: print(...)`). -/
def failureReport (out err : PyStr) : List UStep :=
  (if out ≠ [] then [UStep.print (pstr "STDOUT: " ++ out)] else []) ++
    (if err ≠ [] then [UStep.print (pstr "STDERR: " ++ err)] else [])

/-- Shallow embedding of `ensure_irods_collection`
(`upload_files.py` lines 30–45): the observable trace, and whether the
function called `sys.exit` (aborting its caller). -/
def ensure_irods_collection (path : PyStr) (dry_run : Bool) (w : World) :
    List UStep × Bool :=
  let hdr := UStep.print
    (pstr "Ensuring iRODS collection '" ++ path ++ pstr "' exists...")
  if dry_run then
    ([hdr,
      .print (pstr "[DRY-RUN] Would run: imkdir -p " ++ path),
      .print (pstr "[DRY-RUN] Collection '" ++ path ++ pstr "' assumed to exist.")],
     false)
  else
    match w.run (imkdirCmd path) with
    | .success _ _ =>
      ([hdr, .exec (imkdirCmd path),
        .print (pstr "Collection '" ++ path ++ pstr "' exists or was created successfully.")],
       false)
    | .failure out err =>
      ([hdr, .exec (imkdirCmd path),
        .print (pstr "Failed to create iRODS collection '" ++ path ++ pstr "'!")] ++
        failureReport out err ++ [.exit 1],
       true)

/-- Python `str.split('/')` (keeps empty components). -/
def splitSlash : PyStr → List PyStr
  | [] => [[]]
  | c :: rest =>
    match splitSlash rest with
    | h :: t => if c = '/' then [] :: h :: t else (c :: h) :: t
    | [] => if c = '/' then [[], []] else [[c]]

/-- One step of `posixpath.normpath`'s component loop, on a reversed
accumulator (`acc.head?` is Python's `new_comps[-1]`):
`if comp in ('', '.'): continue`, then append unless the component is a
collapsible `..`, which pops when the accumulator is nonempty. -/
def normStep (initialSlashes : Nat) (acc : List PyStr) (comp : PyStr) :
    List PyStr :=
  if comp = [] ∨ comp = pstr "." then acc
  else if comp ≠ pstr ".." ∨ (initialSlashes = 0 ∧ acc = []) ∨
      (acc ≠ [] ∧ acc.head? = some (pstr "..")) then
    comp :: acc
  else if acc ≠ [] then acc.tail
  else acc

/-- `posixpath.normpath` for the POSIX paths this script handles. -/
def normpath (p : PyStr) : PyStr :=
  if p = [] then pstr "."
  else
    let initialSlashes : Nat :=
      if (pstr "/").isPrefixOf p then
        if (pstr "//").isPrefixOf p ∧ ¬ (pstr "///").isPrefixOf p then 2 else 1
      else 0
    let newComps := ((splitSlash p).foldl (normStep initialSlashes) []).reverse
    let joined := List.replicate initialSlashes '/' ++
      List.intercalate (pstr "/") newComps
    if joined = [] then pstr "." else joined

/-- `posixpath.basename`: everything after the last `/`. -/
def basename (p : PyStr) : PyStr :=
  ((p.reverse.takeWhile fun c => c ≠ '/').reverse)

/-- `posixpath.join` for exactly two arguments. -/
def pathJoin (a b : PyStr) : PyStr :=
  if (pstr "/").isPrefixOf b then b
  else if a = [] ∨ a.getLast? = some '/' then a ++ b
  else a ++ pstr "/" ++ b

/-- The return value of `upload_folder_to_irods` (lines 77–78):
`os.path.join(irods_path, os.path.basename(os.path.normpath(local_folder)))`. -/
def uploadedFolderPath (localFolder irodsPath : PyStr) : PyStr :=
  pathJoin irodsPath (basename (normpath localFolder))

/-- Shallow embedding of `upload_folder_to_irods`
(`upload_files.py` lines 47–78): the observable trace and the returned
iRODS path (`none` when the function exits via `sys.exit` instead of
returning). -/
def upload_folder_to_irods (localFolder irodsPath : PyStr)
    (resource : Option PyStr) (dry_run : Bool) (w : World) :
    List UStep × Option PyStr :=
  if w.isdir localFolder = false then
    ([.printErr (pstr "Error: Folder '" ++ localFolder ++
        pstr "' does not exist or is not a directory."),
      .exit 1], none)
  else
    match ensure_irods_collection irodsPath dry_run w with
    | (es, true) => (es, none)
    | (es, false) =>
      let cmd := iputCmd resource localFolder irodsPath
      let pre := es ++
        [.print (pstr "Uploading '" ++ localFolder ++
            pstr "' to iRODS path '" ++ irodsPath ++ pstr "'..."),
         .print (pstr "Running command: " ++ joinSpace cmd)]
      if dry_run then
        (pre ++ [.print (pstr "[DRY-RUN] Skipping actual upload.")],
         some (uploadedFolderPath localFolder irodsPath))
      else
        match w.run cmd with
        | .success out _ =>
          (pre ++ [.exec cmd,
            .print (pstr "Successfully uploaded folder '" ++ localFolder ++
              pstr "' to '" ++ irodsPath ++ pstr "'")] ++
            (if out ≠ [] then [UStep.print out] else []),
           some (uploadedFolderPath localFolder irodsPath))
        | .failure out err =>
          (pre ++ [.exec cmd, .print (pstr "iRODS upload failed!")] ++
            failureReport out err ++ [.exit 1],
           none)

/-- Shallow embedding of `replicate_to_resource`
(`upload_files.py` lines 80–98). -/
def replicate_to_resource (uploadedPath secondResource : PyStr)
    (dry_run : Bool) (w : World) : List UStep :=
  let cmd := ireplCmd uploadedPath secondResource
  let pre := [UStep.print (pstr "Replicating '" ++ uploadedPath ++
      pstr "' to resource '" ++ secondResource ++ pstr "'..."),
    UStep.print (pstr "Running command: " ++ joinSpace cmd)]
  if dry_run then
    pre ++ [.print (pstr "[DRY-RUN] Skipping actual replication.")]
  else
    match w.run cmd with
    | .success out _ =>
      pre ++ [.exec cmd,
        .print (pstr "Successfully replicated '" ++ uploadedPath ++
          pstr "' to resource '" ++ secondResource ++ pstr "'")] ++
        (if out ≠ [] then [UStep.print out] else [])
    | .failure out err =>
      pre ++ [.exec cmd, .print (pstr "Replication failed!")] ++
        failureReport out err ++ [.exit 1]

/-- A world in which every command succeeds silently and every path is a
directory (used to instantiate live-mode statements concretely). -/
def allOkWorld : World where
  run := fun _ => .success [] []
  isdir := fun _ => true

end UploadFiles

open CreateFiles ParseSize UploadFiles

section SizeArithmetic

lemma range_map_add_ite_sum (q r n : Nat) :
    ((List.range n).map fun i => q + if i < r then 1 else 0).sum
      = n * q + min r n := by
  induction n with
  | zero => simp
  | succ n ih =>
    rw [List.range_succ, List.map_append, List.sum_append, ih, Nat.succ_mul]
    by_cases h : n < r <;> simp [h] <;> omega

lemma fileSizes_sum (t n : Nat) (hn : 0 < n) : (fileSizes t n).sum = t := by
  unfold fileSizes fileSize
  rw [range_map_add_ite_sum]
  have h1 := Nat.mod_lt t hn
  have h2 := Nat.div_add_mod t n
  omega

lemma range_map_add_ite_eq (q r n : Nat) (h : r ≤ n) :
    ((List.range n).map fun i => q + if i < r then 1 else 0)
      = List.replicate r (q + 1) ++ List.replicate (n - r) q := by
  induction n with
  | zero =>
    have hr : r = 0 := by omega
    subst hr; simp
  | succ n ih =>
    by_cases hr : r ≤ n
    · rw [List.range_succ, List.map_append, ih hr]
      have hnr : ¬ (n < r) := by omega
      have hs : n + 1 - r = (n - r) + 1 := by omega
      rw [hs, List.replicate_succ']
      simp [hnr]
    · have hr1 : r = n + 1 := by omega
      subst hr1
      rw [show n + 1 - (n + 1) = 0 from by omega]
      simp only [List.replicate_zero, List.append_nil]
      refine List.eq_replicate_iff.mpr ⟨by simp, ?_⟩
      intro b hb
      simp only [List.mem_map, List.mem_range] at hb
      obtain ⟨i, hi, rfl⟩ := hb
      simp [hi]

lemma fileSizes_eq_replicate (t n : Nat) (hn : 0 < n) :
    fileSizes t n = List.replicate (t % n) (t / n + 1) ++
      List.replicate (n - t % n) (t / n) := by
  unfold fileSizes fileSize
  exact range_map_add_ite_eq _ _ _ (Nat.le_of_lt (Nat.mod_lt t hn))

lemma utf8Size_zero_char : Char.utf8Size '0' = 1 := by decide

lemma utf8Len_fileContent (s : Nat) : utf8Len (fileContent s) = s := by
  induction s with
  | zero => simp [utf8Len, fileContent]
  | succ n ih =>
    simp only [fileContent, List.replicate_succ, utf8Len, List.map_cons,
      List.sum_cons, utf8Size_zero_char] at *
    omega

lemma writtenFiles_writes (folder : PyStr) (l : List (PyStr × Nat)) :
    writtenFiles (l.map fun p => CreateFiles.FsEffect.writeFile folder p.1 p.2)
      = l := by
  induction l with
  | nil => rfl
  | cons hd t ih =>
    show hd :: writtenFiles (t.map _) = hd :: t
    rw [ih]

lemma writtenFiles_create (total num : Int) (folder : PyStr)
    (dir : List PyStr) (ht : 0 < total) (hn : 0 < num) (hle : num ≤ total) :
    writtenFiles (create_data_folder_with_files total num folder dir).1
      = plannedFiles dir total.toNat num.toNat := by
  unfold create_data_folder_with_files
  rw [if_neg (by omega), if_neg (by omega), if_neg (by omega)]
  exact writtenFiles_writes folder _

end SizeArithmetic

/-- C1: for every `total_size_bytes > 0` and `num_files > 0` with
`num_files ≤ total_size_bytes`, `create_data_folder_with_files` writes
exactly `num_files` files (with pairwise-distinct names), and the UTF-8
byte sizes of the contents it writes (`'0' * file_size`) sum to exactly
`total_size_bytes`. -/
theorem create_files_exact_count_and_sum (total num : Int) (folder : PyStr)
    (dir : List PyStr) (ht : 0 < total) (hn : 0 < num) (hle : num ≤ total) :
    (writtenFiles (create_data_folder_with_files total num folder dir).1).length
        = num.toNat ∧
    ((writtenFiles (create_data_folder_with_files total num folder dir).1).map
        fun p => utf8Len (fileContent p.2)).sum = total.toNat := by
  rw [writtenFiles_create total num folder dir ht hn hle]
  constructor
  · simp [plannedFiles]
  · have hmap :
        ((plannedFiles dir total.toNat num.toNat).map
          fun p => utf8Len (fileContent p.2)) = fileSizes total.toNat num.toNat := by
      simp only [plannedFiles, fileSizes, List.map_map]
      exact List.map_congr_left fun i _ => utf8Len_fileContent _
    rw [hmap, fileSizes_sum]
    omega

/-- Witness for C1 at `total = 5`, `num = 2`. -/
theorem create_files_exact_count_and_sum_witness :
    (writtenFiles (create_data_folder_with_files 5 2 (pstr "d") []).1).length
        = (2 : Int).toNat ∧
    ((writtenFiles (create_data_folder_with_files 5 2 (pstr "d") []).1).map
        fun p => utf8Len (fileContent p.2)).sum = (5 : Int).toNat :=
  create_files_exact_count_and_sum 5 2 (pstr "d") []
    (by decide) (by decide) (by decide)

/-- C2 (counterexample): the code gives the extra remainder bytes to the
*first* `total % num` files, not to the last one: for a 100-byte budget
over 3 files the sizes are `[34, 33, 33]`, not `[33, 33, 34]`. -/
theorem even_split_counterexample :
    fileSizes 100 3 = [34, 33, 33] ∧ fileSizes 100 3 ≠ [33, 33, 34] := by
  decide

/-- C2 (amended): every file gets `per = total / num` bytes, and the
remainder `total - per * num` is distributed one byte each to the first
`total % num` files; for budget 100 over 3 files the sizes in order are
`[34, 33, 33]`. -/
theorem even_split_first_files_get_remainder (t n : Nat) (hn : 0 < n) :
    fileSizes t n = List.replicate (t % n) (t / n + 1) ++
      List.replicate (n - t % n) (t / n) :=
  fileSizes_eq_replicate t n hn

/-- Witness for the amended C2 at `t = 100`, `n = 3`. -/
theorem even_split_first_files_get_remainder_witness :
    (fileSizes 100 3 = List.replicate (100 % 3) (100 / 3 + 1) ++
      List.replicate (3 - 100 % 3) (100 / 3)) ∧
    fileSizes 100 3 = [34, 33, 33] :=
  ⟨even_split_first_files_get_remainder 100 3 (by decide), by decide⟩

/-- C3: under valid inputs every written file size is at least 1 byte,
and when `num_files > total_size_bytes` the function raises instead of
writing anything. -/
theorem create_files_min_size_or_error (total num : Int) (folder : PyStr)
    (dir : List PyStr) :
    (0 < total → 0 < num → num ≤ total →
      ∀ p ∈ writtenFiles (create_data_folder_with_files total num folder dir).1,
        1 ≤ p.2) ∧
    (0 < total → total < num →
      create_data_folder_with_files total num folder dir =
        ([], some (pstr "Number of files cannot exceed total size in bytes (each file must be at least 1 byte)."))) := by
  constructor
  · intro ht hn hle p hp
    rw [writtenFiles_create total num folder dir ht hn hle] at hp
    simp only [plannedFiles, List.mem_map, List.mem_range] at hp
    obtain ⟨i, hi, rfl⟩ := hp
    have hnt : num.toNat ≤ total.toNat := by omega
    have hn0 : 0 < num.toNat := by omega
    have h1 : 1 ≤ total.toNat / num.toNat :=
      (Nat.one_le_div_iff hn0).mpr hnt
    simp only [fileSize]
    omega
  · intro ht hgt
    unfold create_data_folder_with_files
    rw [if_neg (by omega), if_neg (by omega), if_pos (by omega)]

/-- Witness for C3: sizes at `(5, 2)`, failure at `(1, 2)`. -/
theorem create_files_min_size_or_error_witness :
    (∀ p ∈ writtenFiles (create_data_folder_with_files 5 2 (pstr "d") []).1,
      1 ≤ p.2) ∧
    create_data_folder_with_files 1 2 (pstr "d") [] =
      ([], some (pstr "Number of files cannot exceed total size in bytes (each file must be at least 1 byte).")) := by
  exact ⟨(create_files_min_size_or_error 5 2 (pstr "d") []).1
      (by decide) (by decide) (by decide),
    (create_files_min_size_or_error 1 2 (pstr "d") []).2 (by decide) (by decide)⟩

/-- C5: `create_data_folder_with_files` raises exactly when
`total ≤ 0`, `num ≤ 0` or `num > total`, and when it raises it performs
no filesystem effect (the validation at lines 46–51 runs before
`os.makedirs` and before any write). -/
theorem create_files_error_iff (total num : Int) (folder : PyStr)
    (dir : List PyStr) :
    ((create_data_folder_with_files total num folder dir).2.isSome ↔
      total ≤ 0 ∨ num ≤ 0 ∨ total < num) ∧
    ((total ≤ 0 ∨ num ≤ 0 ∨ total < num) →
      (create_data_folder_with_files total num folder dir).1 = []) := by
  unfold create_data_folder_with_files
  split_ifs with h1 h2 h3 <;> simp <;> omega

/-- Witness for C5 at the invalid input `total = 0`, `num = 1` and the
valid input `total = 5`, `num = 2`. -/
theorem create_files_error_iff_witness :
    (create_data_folder_with_files 0 1 (pstr "d") []).2.isSome ∧
    (create_data_folder_with_files 0 1 (pstr "d") []).1 = [] ∧
    ¬ (create_data_folder_with_files 5 2 (pstr "d") []).2.isSome :=
  ⟨(create_files_error_iff 0 1 (pstr "d") []).1.mpr (Or.inl (by decide)),
   (create_files_error_iff 0 1 (pstr "d") []).2 (Or.inl (by decide)),
   fun h => by
    have := (create_files_error_iff 5 2 (pstr "d") []).1.mp h
    omega⟩

/-- C7 (counterexample): the written text content is a deterministic
function of the file size (`'0' * file_size`) — there is no input on
which two runs with identical arguments write different character
values; at size 3 the content is always `"000"`. -/
theorem content_nondeterminism_counterexample :
    (¬ ∃ size : Nat, fileContent size ≠ fileContent size) ∧
    fileContent 3 = pstr "000" :=
  ⟨fun ⟨_, h⟩ => h rfl, by decide⟩

/-- C7 (amended): the content written for a file of a given size is
exactly `size` repetitions of `'0'` — identical on every run — and its
UTF-8 byte length equals the size exactly. -/
theorem content_deterministic_exact_length (size : Nat) :
    fileContent size = List.replicate size '0' ∧
    utf8Len (fileContent size) = size :=
  ⟨rfl, utf8Len_fileContent size⟩

section SequenceNamer

lemma natReprGo_congr : ∀ f1 f2 n : Nat, n < f1 → n < f2 →
    natReprGo f1 n = natReprGo f2 n := by
  intro f1
  induction f1 with
  | zero => omega
  | succ f1 ih =>
    intro f2 n h1 h2
    cases f2 with
    | zero => omega
    | succ f2 =>
      simp only [natReprGo]
      by_cases h : n < 10
      · simp [h]
      · rw [if_neg h, if_neg h,
          ih f2 (n / 10) (by omega) (by omega)]

lemma natRepr_lt10 (n : Nat) (h : n < 10) : natRepr n = [digitChar n] := by
  simp [natRepr, natReprGo, h]

lemma natRepr_ge10 (n : Nat) (h : 10 ≤ n) :
    natRepr n = natRepr (n / 10) ++ [digitChar (n % 10)] := by
  have hd : n / 10 < n := Nat.div_lt_self (by omega) (by omega)
  show natReprGo (n + 1) n = _
  rw [show natReprGo (n + 1) n
      = if n < 10 then [digitChar n]
        else natReprGo n (n / 10) ++ [digitChar (n % 10)] from rfl,
    if_neg (by omega),
    natReprGo_congr n (n / 10 + 1) (n / 10) hd (by omega)]
  rfl

lemma fromDigits_append (l : PyStr) (c : Char) :
    fromDigits (l ++ [c]) = 10 * fromDigits l + charVal c := by
  simp only [fromDigits, List.foldl_append, List.foldl_cons, List.foldl_nil]
  omega

lemma charVal_digitChar (n : Nat) (h : n < 10) : charVal (digitChar n) = n := by
  interval_cases n <;> decide

lemma fromDigits_natRepr (n : Nat) : fromDigits (natRepr n) = n := by
  induction n using Nat.strong_induction_on with
  | _ n ih =>
    by_cases h : n < 10
    · rw [natRepr_lt10 n h]
      simp only [fromDigits, List.foldl_cons, List.foldl_nil]
      rw [charVal_digitChar n h]
      omega
    · have h10 : 10 ≤ n := by omega
      have hd : n / 10 < n := Nat.div_lt_self (by omega) (by omega)
      rw [natRepr_ge10 n h10, fromDigits_append, ih (n / 10) hd,
        charVal_digitChar (n % 10) (Nat.mod_lt n (by omega))]
      have := Nat.div_add_mod n 10
      omega

lemma natRepr_inj (a b : Nat) (h : natRepr a = natRepr b) : a = b := by
  have ha := fromDigits_natRepr a
  rw [h, fromDigits_natRepr b] at ha
  omega

lemma fileName_inj (i j : Nat) (h : fileName i = fileName j) : i = j := by
  unfold fileName at h
  exact natRepr_inj i j
    (List.append_cancel_left (List.append_cancel_right h))

lemma isMatchingEntry_fileName (m : Nat) :
    isMatchingEntry (fileName m) = true := by
  simp only [isMatchingEntry, fileName, Bool.and_eq_true,
    List.isPrefixOf_iff_prefix, List.isSuffixOf_iff_suffix]
  refine ⟨?_, List.suffix_append _ _⟩
  rw [List.append_assoc]
  exact List.prefix_append _ _

lemma next_index_canonical (dir : List PyStr) (k : Nat)
    (hdir : existing_files dir = canonicalDir k) : next_index dir = k + 1 := by
  simp [next_index, hdir, canonicalDir]

lemma fileName_not_mem (dir : List PyStr) (k m : Nat)
    (hdir : existing_files dir = canonicalDir k) (hm : k < m) :
    fileName m ∉ dir := by
  intro hmem
  have hmem2 : fileName m ∈ existing_files dir :=
    List.mem_filter.mpr ⟨hmem, isMatchingEntry_fileName m⟩
  rw [hdir] at hmem2
  simp only [canonicalDir, List.mem_map, List.mem_range] at hmem2
  obtain ⟨j, hj, heq⟩ := hmem2
  have := fileName_inj _ _ heq
  omega

lemma plannedFiles_names (dir : List PyStr) (t n : Nat) :
    (plannedFiles dir t n).map Prod.fst
      = (List.range n).map fun i => fileName (next_index dir + i) := by
  simp only [plannedFiles, List.map_map]
  rfl

lemma existing_files_append (d1 d2 : List PyStr) :
    existing_files (d1 ++ d2) = existing_files d1 ++ existing_files d2 := by
  simp [existing_files, List.filter_append]

lemma existing_files_names (dir : List PyStr) (t n : Nat) :
    existing_files ((plannedFiles dir t n).map Prod.fst)
      = (plannedFiles dir t n).map Prod.fst := by
  apply List.filter_eq_self.mpr
  intro a ha
  rw [plannedFiles_names] at ha
  simp only [List.mem_map, List.mem_range] at ha
  obtain ⟨i, _, rfl⟩ := ha
  exact isMatchingEntry_fileName _

lemma canonicalDir_append (k n : Nat) :
    canonicalDir k ++ ((List.range n).map fun i => fileName (k + 1 + i))
      = canonicalDir (k + n) := by
  unfold canonicalDir
  rw [List.range_add, List.map_append, List.map_map]
  congr 1
  apply List.map_congr_left
  intro i _
  show fileName (k + 1 + i) = fileName (k + i + 1)
  exact congrArg fileName (by omega)

end SequenceNamer

/-- C4 (counterexample): for the pre-existing directory state
`["file_3.txt"]` the scan counts one matching entry, so the next index is
2; writing two files produces `file_2.txt` and `file_3.txt`, and the
latter overwrites the existing entry — the new indices do not strictly
exceed the indices already present. -/
theorem sequence_namer_counterexample :
    (writtenFiles (create_data_folder_with_files 2 2 (pstr "d")
        [pstr "file_3.txt"]).1).map Prod.fst
      = [pstr "file_2.txt", pstr "file_3.txt"] ∧
    pstr "file_3.txt" ∈ [pstr "file_3.txt"] := by decide

/-- C4 (amended): when the pre-existing matching entries are exactly
`file_1.txt … file_k.txt` (in particular after any number of runs
starting from an empty directory), the next starting index is `k + 1`,
no written file overwrites an existing entry, the directory after the
run is again canonical, and a second run's indices strictly exceed every
index of the first batch. -/
theorem sequence_namer_canonical_append (k t n n' : Nat) (dir : List PyStr)
    (hdir : existing_files dir = canonicalDir k) :
    next_index dir = k + 1 ∧
    (∀ p ∈ plannedFiles dir t n, p.1 ∉ dir) ∧
    existing_files (dir ++ (plannedFiles dir t n).map Prod.fst)
      = canonicalDir (k + n) ∧
    (∀ i ∈ writtenIndices (dir ++ (plannedFiles dir t n).map Prod.fst) n',
      ∀ j ∈ writtenIndices dir n, j < i) := by
  have hnext := next_index_canonical dir k hdir
  have hdir2 : existing_files (dir ++ (plannedFiles dir t n).map Prod.fst)
      = canonicalDir (k + n) := by
    rw [existing_files_append, hdir, existing_files_names,
      plannedFiles_names, hnext, canonicalDir_append]
  refine ⟨hnext, ?_, hdir2, ?_⟩
  · intro p hp
    simp only [plannedFiles, List.mem_map, List.mem_range] at hp
    obtain ⟨i, hi, rfl⟩ := hp
    simp only [hnext]
    exact fileName_not_mem dir k _ hdir (by omega)
  · intro i hi j hj
    have hnext2 := next_index_canonical _ _ hdir2
    simp only [writtenIndices, List.mem_map, List.mem_range, hnext, hnext2]
      at hi hj
    obtain ⟨a, ha, rfl⟩ := hi
    obtain ⟨b, hb, rfl⟩ := hj
    omega

/-- Witness for the amended C4: one existing file `file_1.txt`, a first
batch of 2 files of 5 bytes, a second batch of 1 file. -/
theorem sequence_namer_canonical_append_witness :
    next_index [pstr "file_1.txt"] = 1 + 1 ∧
    (∀ p ∈ plannedFiles [pstr "file_1.txt"] 5 2,
      p.1 ∉ [pstr "file_1.txt"]) ∧
    existing_files ([pstr "file_1.txt"] ++
        (plannedFiles [pstr "file_1.txt"] 5 2).map Prod.fst)
      = canonicalDir (1 + 2) ∧
    (∀ i ∈ writtenIndices ([pstr "file_1.txt"] ++
        (plannedFiles [pstr "file_1.txt"] 5 2).map Prod.fst) 1,
      ∀ j ∈ writtenIndices [pstr "file_1.txt"] 2, j < i) :=
  sequence_namer_canonical_append 1 5 2 1 [pstr "file_1.txt"] (by decide)

/-- C6 (counterexample): on input `"nanKB"` the numeric portion `"NAN"`
*is* parsable as a float (`float("NAN")` is NaN), yet `parse_size`
raises the invalid-size-format error, because `int(nan * 1024)` raises
`ValueError` inside the same `try` block — so the error is not raised
*exactly* when the numeric portion cannot be parsed. -/
theorem parse_size_nan_counterexample :
    parse_size (pstr "nanKB") = .error (.invalidSize (pstr "NANKB")) ∧
    pyFloat? (dropSuffix ((trimPy (pstr "nanKB")).map Char.toUpper) (pstr "KB"))
      = some .nan ∧
    findUnit UNITS ((trimPy (pstr "nanKB")).map Char.toUpper)
      = some (pstr "KB", 1024) := by decide

/-- C6 (amended), for ASCII inputs (where the embedding of `strip`,
`upper`, `float()` and `int()` is character-exact; CPython additionally
maps Unicode whitespace, digits and case): after trimming and
uppercasing, if the string ends in `KB`/`MB`/`GB` the multiplier is
1024, 1024², 1024³ respectively; a finite numeric portion — the literal
rounded to nearest-even binary64 — yields its value times the
multiplier truncated toward zero, unless that (exact) product overflows
binary64, which makes `int()` raise an uncaught `OverflowError`; the
invalid-size error is raised exactly when the numeric portion cannot be
parsed as a float *or parses to NaN* (an infinite value likewise raises
the uncaught overflow error).  Otherwise the bare string is parsed as an
integer, the invalid-size error being raised exactly when that fails.
The function has no side effects. -/
theorem parse_size_cases (s : PyStr) (hascii : ∀ c ∈ s, c.toNat < 128) :
    (∀ u m, findUnit UNITS ((trimPy s).map Char.toUpper) = some (u, m) →
      ((u, m) = (pstr "KB", 1024) ∨ (u, m) = (pstr "MB", 1024 ^ 2) ∨
        (u, m) = (pstr "GB", 1024 ^ 3)) ∧
      (∀ num den,
        pyFloat? (dropSuffix ((trimPy s).map Char.toUpper) u)
            = some (.finite num den) →
        (prodOverflows num den m = false →
          parse_size s = .ok (intTrunc (num * (m : Int)) den)) ∧
        (prodOverflows num den m = true →
          parse_size s = .error .overflow)) ∧
      (parse_size s
          = .error (.invalidSize ((trimPy s).map Char.toUpper)) ↔
        pyFloat? (dropSuffix ((trimPy s).map Char.toUpper) u) = none ∨
        pyFloat? (dropSuffix ((trimPy s).map Char.toUpper) u) = some .nan)) ∧
    (findUnit UNITS ((trimPy s).map Char.toUpper) = none →
      (∀ z, pyInt? ((trimPy s).map Char.toUpper) = some z →
        parse_size s = .ok z) ∧
      (parse_size s
          = .error (.invalidSize ((trimPy s).map Char.toUpper)) ↔
        pyInt? ((trimPy s).map Char.toUpper) = none)) := by
  constructor
  · intro u m hfu
    refine ⟨?_, ?_, ?_⟩
    · revert hfu
      simp only [findUnit, UNITS]
      split_ifs <;> intro hfu <;> simp_all
    · intro num den hq
      constructor <;> intro hov <;> simp [parse_size, hfu, hq, hov]
    · cases hq : pyFloat? (dropSuffix ((trimPy s).map Char.toUpper) u) with
      | none => simp [parse_size, hfu, hq]
      | some v =>
        cases v with
        | finite num den =>
          cases hov : prodOverflows num den m <;>
            simp [parse_size, hfu, hq, hov]
        | inf => simp [parse_size, hfu, hq]
        | neginf => simp [parse_size, hfu, hq]
        | nan => simp [parse_size, hfu, hq]
  · intro hfu
    constructor
    · intro z hz
      simp only [parse_size, hfu, hz]
    · cases hz : pyInt? ((trimPy s).map Char.toUpper) with
      | none => simp [parse_size, hfu, hz]
      | some z => simp [parse_size, hfu, hz]

set_option maxRecDepth 8000 in
/-- Witness for the amended C6: `" 2kb "` normalises to `"2KB"`, the
unit is `KB` with multiplier 1024, `float("2")` is the binary64 value
2/1, and the result is `int(2.0 * 1024) = 2048`; `"abc"` has no unit and
fails as a bare integer.  The extra conjuncts check the binary64
rounding concretely: `"0.00097656249999999999999"` rounds to exactly
2⁻¹⁰ so the result is 1 (not the 0 that exact decimal arithmetic would
give), and `float("9e307") * 1024` overflows. -/
theorem parse_size_cases_witness :
    parse_size (pstr " 2kb ") = .ok 2048 ∧
    parse_size (pstr "abc") = .error (.invalidSize (pstr "ABC")) ∧
    parse_size (pstr "0.00097656249999999999999KB") = .ok 1 ∧
    parse_size (pstr "9e307KB") = .error .overflow := by
  refine ⟨?_, ?_, by decide, by decide⟩
  · have h := (((parse_size_cases (pstr " 2kb ") (by decide)).1 (pstr "KB")
      1024 (by decide)).2.1 2 1 (by decide)).1 (by decide)
    rw [show intTrunc (2 * ((1024 : Nat) : Int)) 1 = 2048 from by decide] at h
    exact h
  · have h := ((parse_size_cases (pstr "abc") (by decide)).2
      (by decide)).2.mpr (by decide)
    rw [show (trimPy (pstr "abc")).map Char.toUpper = pstr "ABC" from by decide]
      at h
    exact h

set_option maxRecDepth 8000 in
/-- C9: with a unit suffix a fractional numeric portion is accepted —
`"1.5MB"` parses to `int(1.5 * 1024²) = 1572864` (1.5 is dyadic, so
`float("1.5")` is exactly the pair 3/2, and truncation is toward zero) —
while a bare fractional number is rejected: `int("1.5")` fails, so
`"1.5"` raises the invalid-size-format error. -/
theorem parse_size_fractional :
    parse_size (pstr "1.5MB") = .ok 1572864 ∧
    (1572864 : Int) = intTrunc (3 * ((1024 ^ 2 : Nat) : Int)) 2 ∧
    pyFloat? (pstr "1.5") = some (.finite 3 2) ∧
    pyInt? (pstr "1.5") = none ∧
    parse_size (pstr "1.5") = .error (.invalidSize (pstr "1.5")) := by
  decide

section DryRun

lemma execsOf_append (a b : List UStep) :
    execsOf (a ++ b) = execsOf a ++ execsOf b := by
  simp [execsOf, List.filterMap_append]

lemma execsOf_failureReport (out err : PyStr) :
    execsOf (failureReport out err) = [] := by
  unfold failureReport
  split_ifs <;> simp [execsOf]

lemma execsOf_nil : execsOf [] = [] := rfl

lemma execsOf_cons_print (s : PyStr) (t : List UStep) :
    execsOf (UStep.print s :: t) = execsOf t := rfl

lemma execsOf_cons_printErr (s : PyStr) (t : List UStep) :
    execsOf (UStep.printErr s :: t) = execsOf t := rfl

lemma execsOf_cons_exec (c : List PyStr) (t : List UStep) :
    execsOf (UStep.exec c :: t) = c :: execsOf t := rfl

lemma execsOf_cons_exit (n : Nat) (t : List UStep) :
    execsOf (UStep.exit n :: t) = execsOf t := rfl

lemma execsOf_ite_nil_print {c : Prop} [Decidable c] (s : PyStr) :
    execsOf (if c then [] else [UStep.print s]) = [] := by
  split_ifs <;> rfl

lemma execsOf_ite_print_nil {c : Prop} [Decidable c] (s : PyStr) :
    execsOf (if c then [UStep.print s] else []) = [] := by
  split_ifs <;> rfl

lemma joinSpace_imkdirCmd (p : PyStr) :
    joinSpace (imkdirCmd p) = pstr "imkdir -p " ++ p := by
  simp [joinSpace, imkdirCmd, List.intercalate, List.intersperse, pstr]

lemma wouldRun_line (p : PyStr) :
    pstr "[DRY-RUN] Would run: " ++ joinSpace (imkdirCmd p)
      = pstr "[DRY-RUN] Would run: imkdir -p " ++ p := by
  rw [joinSpace_imkdirCmd, ← List.append_assoc]
  exact congrArg (fun l => l ++ p) (by decide)

end DryRun

/-- C8: with the dry-run flag set, `ensure_irods_collection`,
`upload_folder_to_irods` and `replicate_to_resource` execute no external
command (and hence mutate neither the filesystem nor the remote store),
while the command lines they report — `imkdir -p <path>` in the
`[DRY-RUN] Would run:` line, and the `iput`/`irepl` lines printed as
`Running command:` before the dry-run branch — are exactly the commands
a live run with the same inputs executes. -/
theorem dry_run_no_exec_same_commands
    (path localFolder irodsPath uploadedPath resource2 : PyStr)
    (resource : Option PyStr) (w : World) :
    execsOf (ensure_irods_collection path true w).1 = [] ∧
    execsOf (upload_folder_to_irods localFolder irodsPath resource true w).1
      = [] ∧
    execsOf (replicate_to_resource uploadedPath resource2 true w) = [] ∧
    UStep.print (pstr "[DRY-RUN] Would run: " ++ joinSpace (imkdirCmd path))
      ∈ (ensure_irods_collection path true w).1 ∧
    execsOf (ensure_irods_collection path false w).1 = [imkdirCmd path] ∧
    (w.isdir localFolder = true →
      (UStep.print (pstr "Running command: " ++
          joinSpace (iputCmd resource localFolder irodsPath))
        ∈ (upload_folder_to_irods localFolder irodsPath resource true w).1) ∧
      ∀ o e, w.run (imkdirCmd irodsPath) = .success o e →
        execsOf
            (upload_folder_to_irods localFolder irodsPath resource false w).1
          = [imkdirCmd irodsPath, iputCmd resource localFolder irodsPath]) ∧
    (UStep.print (pstr "Running command: " ++
        joinSpace (ireplCmd uploadedPath resource2))
      ∈ replicate_to_resource uploadedPath resource2 true w) ∧
    execsOf (replicate_to_resource uploadedPath resource2 false w)
      = [ireplCmd uploadedPath resource2] := by
  refine ⟨?_, ?_, ?_, ?_, ?_, ?_, ?_, ?_⟩
  · simp [ensure_irods_collection, execsOf]
  · cases hv : w.isdir localFolder <;>
      simp [upload_folder_to_irods, ensure_irods_collection, execsOf, hv,
        execsOf_append]
  · simp [replicate_to_resource, execsOf]
  · rw [wouldRun_line]
    simp [ensure_irods_collection]
  · cases hr : w.run (imkdirCmd path) <;>
      simp [ensure_irods_collection, hr, execsOf_append,
        execsOf_failureReport, execsOf_cons_print, execsOf_cons_exec,
        execsOf_cons_exit, execsOf_nil]
  · intro hdir
    constructor
    · simp [upload_folder_to_irods, hdir, ensure_irods_collection]
    · intro o e hr
      cases hiput : w.run (iputCmd resource localFolder irodsPath) <;>
        simp [upload_folder_to_irods, hdir, ensure_irods_collection, hr,
          hiput, execsOf_append, execsOf_failureReport, execsOf_cons_print,
          execsOf_cons_exec, execsOf_cons_exit, execsOf_nil,
          execsOf_ite_nil_print, execsOf_ite_print_nil]
  · simp [replicate_to_resource]
  · cases hr : w.run (ireplCmd uploadedPath resource2) <;>
      simp [replicate_to_resource, hr, execsOf_append,
        execsOf_failureReport, execsOf_cons_print, execsOf_cons_exec,
        execsOf_cons_exit, execsOf_nil, execsOf_ite_nil_print,
        execsOf_ite_print_nil]

/-- Witness for C8: a concrete dry run executes nothing while the live
run with the same inputs executes exactly the reported `imkdir` and
`iput` commands. -/
theorem dry_run_no_exec_same_commands_witness :
    execsOf (upload_folder_to_irods (pstr "data") (pstr "/zone/home") none
        true allOkWorld).1 = [] ∧
    execsOf (upload_folder_to_irods (pstr "data") (pstr "/zone/home") none
        false allOkWorld).1
      = [imkdirCmd (pstr "/zone/home"),
         iputCmd none (pstr "data") (pstr "/zone/home")] := by
  have h := dry_run_no_exec_same_commands (pstr "p") (pstr "data")
    (pstr "/zone/home") (pstr "u") (pstr "r2") none allOkWorld
  exact ⟨h.2.1, (h.2.2.2.2.2.1 rfl).2 [] [] rfl⟩

/-- C10: when the local folder exists, `upload_folder_to_irods` returns
`os.path.join(irods_path, os.path.basename(os.path.normpath(local_folder)))`;
the dry run always returns it, the live run returns the same value
whenever it returns at all (otherwise it calls `sys.exit(1)`), and in
particular returns it whenever both external commands succeed. -/
theorem upload_return_value (localFolder irodsPath : PyStr)
    (resource : Option PyStr) (w : World)
    (hdir : w.isdir localFolder = true) :
    (upload_folder_to_irods localFolder irodsPath resource true w).2
      = some (uploadedFolderPath localFolder irodsPath) ∧
    uploadedFolderPath localFolder irodsPath
      = pathJoin irodsPath (basename (normpath localFolder)) ∧
    ((upload_folder_to_irods localFolder irodsPath resource false w).2
        = some (uploadedFolderPath localFolder irodsPath) ∨
      ((upload_folder_to_irods localFolder irodsPath resource false w).2
          = none ∧
        UStep.exit 1
          ∈ (upload_folder_to_irods localFolder irodsPath resource false w).1)) ∧
    ∀ o e o2 e2, w.run (imkdirCmd irodsPath) = .success o e →
      w.run (iputCmd resource localFolder irodsPath) = .success o2 e2 →
      (upload_folder_to_irods localFolder irodsPath resource false w).2
        = some (uploadedFolderPath localFolder irodsPath) := by
  refine ⟨?_, rfl, ?_, ?_⟩
  · simp [upload_folder_to_irods, hdir, ensure_irods_collection]
  · cases hr : w.run (imkdirCmd irodsPath) with
    | success o e =>
      cases hiput : w.run (iputCmd resource localFolder irodsPath) with
      | success o2 e2 =>
        left
        simp [upload_folder_to_irods, hdir, ensure_irods_collection, hr, hiput]
      | failure o2 e2 =>
        right
        simp [upload_folder_to_irods, hdir, ensure_irods_collection, hr, hiput]
    | failure o e =>
      right
      simp [upload_folder_to_irods, hdir, ensure_irods_collection, hr,
        failureReport]
  · intro o e o2 e2 hr hiput
    simp [upload_folder_to_irods, hdir, ensure_irods_collection, hr, hiput]

/-- Witness for C10: `local_folder = "data_x/"`,
`irods_path = "/zone/home"` — both modes return
`"/zone/home/data_x"`. -/
theorem upload_return_value_witness :
    (upload_folder_to_irods (pstr "data_x/") (pstr "/zone/home") none true
        allOkWorld).2
      = some (uploadedFolderPath (pstr "data_x/") (pstr "/zone/home")) ∧
    (upload_folder_to_irods (pstr "data_x/") (pstr "/zone/home") none false
        allOkWorld).2
      = some (uploadedFolderPath (pstr "data_x/") (pstr "/zone/home")) ∧
    uploadedFolderPath (pstr "data_x/") (pstr "/zone/home")
      = pstr "/zone/home/data_x" := by
  have h := upload_return_value (pstr "data_x/") (pstr "/zone/home") none
    allOkWorld rfl
  exact ⟨h.1, h.2.2.2 [] [] [] [] rfl rfl, by decide⟩
